import Mathlib

/-!
Verification of the survey-coding script (`SurveyData/VRGroup/Script.py`).

The script discovers a single raw CSV in its own directory, classifies the
experimental group from the filename, scores each row against a hardcoded
answer key, and emits one coded record per row.  Below is a shallow
embedding of that pipeline: a `SurveyTable` is a column list plus rows
(each row a map from column name to the cell's string form, matching the
`str(row[col])` conversion the script performs), a `GroupConfig` carries
the column lists and answer key, and the scoring loops become recursive
functions over the column lists.  A failed `ANSWER_KEY[col]` lookup
(Python `KeyError`) is modelled with `Option`/`Except` failure.
-/

/-- The string forms that the script treats as a missing answer:
`answer not in ["nan", "NaN", ""]` guards flag emission. -/
def missingMarkers : List String := ["nan", "NaN", ""]

/-- Python's `str.strip()`: remove leading and trailing whitespace
characters.  Defined over the character list so that it computes by
structural recursion. -/
def strip (s : String) : String :=
  ⟨(((s.data.dropWhile Char.isWhitespace).reverse).dropWhile Char.isWhitespace).reverse⟩

/-- A loaded table: the header columns and the rows.  A row maps a column
name to the cell value as a string (the script applies `str(...)` before
use); values of columns outside `columns` are never consulted. -/
structure SurveyTable where
  columns : List String
  rows : List (String → String)

/-- Per-group configuration: group label, ordered pre/post column lists and
the answer key (an association list, looked up by column name). -/
structure GroupConfig where
  group : String
  PRE_COLS : List String
  POST_COLS : List String
  ANSWER_KEY : List (String × String)

/-- Background-column renaming map `BG_COLS`, in insertion order. -/
def BG_COLS : List (String × String) :=
  [("Q1", "cs_background"), ("Q2", "nn_course"), ("Q3_1", "derivative_familiarity")]

/-- The VR group configuration (`if "VR" in file_name` branch). -/
def vrConfig : GroupConfig where
  group := "VR"
  PRE_COLS := ["Q16","Q17","Q18","Q19","Q20","Q21","Q22","Q23","Q24","Q25","Q26","Q27"]
  POST_COLS := ["Q87","Q88","Q89","Q90","Q91","Q92","Q93","Q94","Q95","Q96","Q97","Q98"]
  ANSWER_KEY :=
    [("Q16", "One entire pass over all training samples"),
     ("Q17", "6 4 3 1 5 2"),
     ("Q18", "A function measuring prediction error"),
     ("Q19", "Inputs are weighted and summed through the network"),
     ("Q20", "Inputs are weighted and summed through the network"),
     ("Q21", "Combining the outputs of previous neurons to generate the result of the network."),
     ("Q22", "Determine the influence strength of an input on the neuron\x27s output"),
     ("Q23", "Computes how errors change with respect to weights and biases"),
     ("Q24", "It provides feedback on how far predictions are from actual targets"),
     ("Q25", "2,3"),
     ("Q26", "To enable the activation function to shift left or right"),
     ("Q27", "Bias is learned during training like weights"),
     ("Q87", "One entire pass over all training samples"),
     ("Q88", "6 4 3 1 5 2"),
     ("Q89", "A function measuring prediction error"),
     ("Q90", "Inputs are weighted and summed through the network"),
     ("Q91", "Inputs are weighted and summed through the network"),
     ("Q92", "Combining the outputs of previous neurons to generate the result of the network."),
     ("Q93", "Determine the influence strength of an input on the neuron\x27s output"),
     ("Q94", "Computes how errors change with respect to weights and biases"),
     ("Q95", "It provides feedback on how far predictions are from actual targets"),
     ("Q96", "2,3"),
     ("Q97", "To enable the activation function to shift left or right"),
     ("Q98", "Bias is learned during training like weights")]

/-- The Video group configuration (`else` branch). -/
def videoConfig : GroupConfig where
  group := "Video"
  PRE_COLS := ["Q48","Q49","Q50","Q51","Q52","Q53","Q54","Q55","Q56","Q57","Q52.1","Q55.1"]
  POST_COLS := ["Q71","Q72","Q73","Q74","Q75","Q76","Q77","Q78","Q79","Q80","Q81","Q84"]
  ANSWER_KEY :=
    [("Q48", "One entire pass over all training samples"),
     ("Q49", "6 4 3 1 5 2"),
     ("Q50", "A function measuring prediction error"),
     ("Q51", "Inputs are weighted and summed through the network"),
     ("Q52", "Inputs are weighted and summed through the network"),
     ("Q53", "Combining the outputs of previous neurons to generate the result of the network."),
     ("Q54", "Determine the influence strength of an input on the neuron\x27s output"),
     ("Q55", "Computes how errors change with respect to weights and biases"),
     ("Q56", "It provides feedback on how far predictions are from actual targets"),
     ("Q57", "2,3"),
     ("Q52.1", "To enable the activation function to shift left or right"),
     ("Q55.1", "Bias is learned during training like weights"),
     ("Q71", "One entire pass over all training samples"),
     ("Q72", "6 4 3 1 5 2"),
     ("Q73", "A function measuring prediction error"),
     ("Q74", "Inputs are weighted and summed through the network"),
     ("Q75", "Inputs are weighted and summed through the network"),
     ("Q76", "Combining the outputs of previous neurons to generate the result of the network."),
     ("Q77", "Determine the influence strength of an input on the neuron\x27s output"),
     ("Q78", "Computes how errors change with respect to weights and biases"),
     ("Q79", "It provides feedback on how far predictions are from actual targets"),
     ("Q80", "2,3"),
     ("Q81", "To enable the activation function to shift left or right"),
     ("Q84", "Bias is learned during training like weights")]

/-- Group detection: `if "VR" in file_name` is case-sensitive substring
containment, modelled as infix containment of the character lists. -/
def selectConfig (file_name : String) : GroupConfig :=
  if "VR".toList <:+: file_name.toList then vrConfig else videoConfig

/-- Outcome of the per-column body of a scoring loop. -/
inductive FlagResult where
  /-- Column absent from the table, or trimmed value is a missing marker:
  the `if` guards fail and nothing is emitted. -/
  | skip : FlagResult
  /-- `rec[col] = int(answer == ANSWER_KEY[col])` was emitted with value `v`. -/
  | flag (v : Int) : FlagResult
  /-- `ANSWER_KEY[col]` raised `KeyError`. -/
  | keyError : FlagResult
deriving DecidableEq

/-- One iteration of a scoring loop:
```
if col in df.columns:
    answer = str(row[col]).strip()
    if answer not in ["nan", "NaN", ""]:
        rec[col] = int(answer == ANSWER_KEY[col])
```
-/
def scoreCell (answerKey : List (String × String)) (tableCols : List String)
    (row : String → String) (col : String) : FlagResult :=
  if col ∈ tableCols then
    if strip (row col) ∈ missingMarkers then .skip
    else
      match answerKey.lookup col with
      | some key => .flag (if strip (row col) = key then 1 else 0)
      | none => .keyError
  else .skip

/-- A whole scoring loop over a phase's column list: the emitted
`(column, flag)` pairs in order, and the accumulated score.  `none` models
the run aborting on a `KeyError`. -/
def scorePhase (answerKey : List (String × String)) (tableCols : List String)
    (row : String → String) : List String → Option (List (String × Int) × Int)
  | [] => some ([], 0)
  | col :: rest =>
    match scoreCell answerKey tableCols row col, scorePhase answerKey tableCols row rest with
    | .keyError, _ => none
    | .skip, r => r
    | .flag v, some (flags, s) => some ((col, v) :: flags, v + s)
    | .flag _, none => none

/-- Background extraction: for each `(col, newname)` in `BG_COLS`, copy
`row[col]` to `newname` when the column exists in the table. -/
def extractBackground (tableCols : List String) (row : String → String) :
    List (String × String) :=
  BG_COLS.filterMap fun p => if p.1 ∈ tableCols then some (p.2, row p.1) else none

/-- The coded output record built for one row. -/
structure ParticipantRecord where
  id : Nat
  group : String
  background : List (String × String)
  preFlags : List (String × Int)
  pre_score : Int
  postFlags : List (String × Int)
  post_score : Int
  gain : Int
deriving DecidableEq

/-- Processing of one row of the loop `for idx, row in df.iterrows()`:
background extraction, both scoring loops, and `gain = post - pre`. -/
def processRow (cfg : GroupConfig) (tableCols : List String) (idx : Nat)
    (row : String → String) : Option ParticipantRecord :=
  match scorePhase cfg.ANSWER_KEY tableCols row cfg.PRE_COLS,
        scorePhase cfg.ANSWER_KEY tableCols row cfg.POST_COLS with
  | some (pf, ps), some (qf, qs) =>
    some { id := idx, group := cfg.group,
           background := extractBackground tableCols row,
           preFlags := pf, pre_score := ps,
           postFlags := qf, post_score := qs,
           gain := qs - ps }
  | _, _ => none

/-- The row loop, threading the positional index. -/
def processRows (cfg : GroupConfig) (tableCols : List String) :
    Nat → List (String → String) → Option (List ParticipantRecord)
  | _, [] => some []
  | idx, row :: rest =>
    match processRow cfg tableCols idx row, processRows cfg tableCols (idx + 1) rest with
    | some rec, some recs => some (rec :: recs)
    | _, _ => none

/-- Process a whole loaded table, indices starting at 0. -/
def processTable (cfg : GroupConfig) (tbl : SurveyTable) : Option (List ParticipantRecord) :=
  processRows cfg tbl.columns 0 tbl.rows

/-- The failure modes of a run. -/
inductive CoderError where
  /-- `FileNotFoundError`: no eligible raw CSV in the directory. -/
  | inputNotFound : CoderError
  /-- `RuntimeError`: more than one eligible CSV in the directory. -/
  | ambiguousInput : CoderError
  /-- `KeyError` from an `ANSWER_KEY[col]` lookup during scoring. -/
  | keyError : CoderError
deriving DecidableEq

/-- Input discovery: files matching `*.csv` whose basename does not start
with the output marker `coded_`. -/
def csvCandidates (files : List String) : List String :=
  files.filter fun f =>
    ".csv".toList.isSuffixOf f.toList && !("coded_".toList.isPrefixOf f.toList)

/-- `csv_files` checks: zero candidates raises, several candidates raises,
one candidate is selected. -/
def discoverInput (files : List String) : Except CoderError String :=
  match csvCandidates files with
  | [] => .error .inputNotFound
  | [f] => .ok f
  | _ :: _ :: _ => .error .ambiguousInput

/-- The tail of a run once the input file is known: select the group
configuration from the filename and process all rows of the loaded table. -/
def finishRun (file_name : String) (tbl : SurveyTable) :
    Except CoderError (List ParticipantRecord) :=
  match processTable (selectConfig file_name) tbl with
  | some recs => .ok recs
  | none => .error .keyError

/-- The whole run: discover the input among the directory's `files`, load
it (`load` maps a filename to its table), select the group configuration
from the filename, process all rows.  An `Except.error` result models the
script aborting before writing any output. -/
def runCoder (files : List String) (load : String → SurveyTable) :
    Except CoderError (List ParticipantRecord) :=
  match discoverInput files with
  | .error e => .error e
  | .ok file_name => finishRun file_name (load file_name)

/-! ## Inversion lemmas for one scoring iteration -/

theorem scoreCell_flag_iff {ak : List (String × String)} {tableCols : List String}
    {row : String → String} {col : String} {v : Int} :
    scoreCell ak tableCols row col = .flag v ↔
      col ∈ tableCols ∧ strip (row col) ∉ missingMarkers ∧
        ∃ key, ak.lookup col = some key ∧ v = if strip (row col) = key then 1 else 0 := by
  unfold scoreCell
  split
  · split
    · simp_all
    · cases h : ak.lookup col <;> simp_all
      exact eq_comm
  · simp_all

theorem scoreCell_skip_iff {ak : List (String × String)} {tableCols : List String}
    {row : String → String} {col : String} :
    scoreCell ak tableCols row col = .skip ↔
      col ∉ tableCols ∨ strip (row col) ∈ missingMarkers := by
  unfold scoreCell
  split
  · split
    · simp_all
    · cases h : ak.lookup col <;> simp_all
  · simp_all

theorem scoreCell_keyError_iff {ak : List (String × String)} {tableCols : List String}
    {row : String → String} {col : String} :
    scoreCell ak tableCols row col = .keyError ↔
      col ∈ tableCols ∧ strip (row col) ∉ missingMarkers ∧ ak.lookup col = none := by
  unfold scoreCell
  split
  · split
    · simp_all
    · cases h : ak.lookup col <;> simp_all
  · simp_all

/-! ## Structure of a whole scoring loop -/

theorem scorePhase_sum {ak : List (String × String)} {tableCols : List String}
    {row : String → String} :
    ∀ {cols : List String} {flags : List (String × Int)} {score : Int},
      scorePhase ak tableCols row cols = some (flags, score) →
      score = (flags.map Prod.snd).sum := by
  intro cols
  induction cols with
  | nil => intro flags score h; simp [scorePhase] at h; rw [h.1, ← h.2]; simp
  | cons col rest ih =>
    intro flags score h
    simp only [scorePhase] at h
    cases hc : scoreCell ak tableCols row col with
    | keyError => rw [hc] at h; exact absurd h (by simp)
    | skip => rw [hc] at h; exact ih h
    | flag v =>
      rw [hc] at h
      cases hr : scorePhase ak tableCols row rest with
      | none => rw [hr] at h; exact absurd h (by simp)
      | some p =>
        obtain ⟨flags', s'⟩ := p
        rw [hr] at h
        simp only [Option.some.injEq, Prod.mk.injEq] at h
        obtain ⟨hf, hs⟩ := h
        subst hf hs
        simp [ih hr]

theorem scorePhase_mem_inv {ak : List (String × String)} {tableCols : List String}
    {row : String → String} :
    ∀ {cols : List String} {flags : List (String × Int)} {score : Int} {c : String} {v : Int},
      scorePhase ak tableCols row cols = some (flags, score) →
      (c, v) ∈ flags →
      c ∈ cols ∧ scoreCell ak tableCols row c = .flag v := by
  intro cols
  induction cols with
  | nil =>
    intro flags score c v h hm
    simp [scorePhase] at h
    rw [h.1] at hm
    simp at hm
  | cons col rest ih =>
    intro flags score c v h hm
    simp only [scorePhase] at h
    cases hc : scoreCell ak tableCols row col with
    | keyError => rw [hc] at h; exact absurd h (by simp)
    | skip =>
      rw [hc] at h
      obtain ⟨hmem, hcell⟩ := ih h hm
      exact ⟨List.mem_cons_of_mem _ hmem, hcell⟩
    | flag w =>
      rw [hc] at h
      cases hr : scorePhase ak tableCols row rest with
      | none => rw [hr] at h; exact absurd h (by simp)
      | some p =>
        obtain ⟨flags', s'⟩ := p
        rw [hr] at h
        simp only [Option.some.injEq, Prod.mk.injEq] at h
        obtain ⟨hf, _⟩ := h
        rw [← hf] at hm
        rcases List.mem_cons.mp hm with heq | htail
        · injection heq with h1 h2
          subst h1; subst h2
          exact ⟨List.mem_cons_self _ _, hc⟩
        · obtain ⟨hmem, hcell⟩ := ih hr htail
          exact ⟨List.mem_cons_of_mem _ hmem, hcell⟩

theorem scorePhase_mem_flag {ak : List (String × String)} {tableCols : List String}
    {row : String → String} :
    ∀ {cols : List String} {flags : List (String × Int)} {score : Int} {col : String} {v : Int},
      scorePhase ak tableCols row cols = some (flags, score) →
      col ∈ cols →
      scoreCell ak tableCols row col = .flag v →
      (col, v) ∈ flags := by
  intro cols
  induction cols with
  | nil => intro flags score col v _ hmem _; simp at hmem
  | cons c rest ih =>
    intro flags score col v h hmem hcell
    simp only [scorePhase] at h
    cases hc : scoreCell ak tableCols row c with
    | keyError => rw [hc] at h; exact absurd h (by simp)
    | skip =>
      rw [hc] at h
      rcases List.mem_cons.mp hmem with heq | htail
      · subst heq; rw [hcell] at hc; exact absurd hc (by simp)
      · exact ih h htail hcell
    | flag w =>
      rw [hc] at h
      cases hr : scorePhase ak tableCols row rest with
      | none => rw [hr] at h; exact absurd h (by simp)
      | some p =>
        obtain ⟨flags', s'⟩ := p
        rw [hr] at h
        simp only [Option.some.injEq, Prod.mk.injEq] at h
        rw [← h.1]
        rcases List.mem_cons.mp hmem with heq | htail
        · subst heq
          rw [hcell] at hc
          injection hc with hv
          rw [hv]
          exact List.mem_cons_self _ _
        · exact List.mem_cons_of_mem _ (ih hr htail hcell)

theorem scorePhase_bounds {ak : List (String × String)} {tableCols : List String}
    {row : String → String} :
    ∀ {cols : List String} {flags : List (String × Int)} {score : Int},
      scorePhase ak tableCols row cols = some (flags, score) →
      0 ≤ score ∧ score ≤ ((cols.filter fun c => c ∈ tableCols).length : Int) := by
  intro cols
  induction cols with
  | nil => intro flags score h; simp [scorePhase] at h; rw [← h.2]; simp
  | cons c rest ih =>
    intro flags score h
    simp only [scorePhase] at h
    cases hc : scoreCell ak tableCols row c with
    | keyError => rw [hc] at h; exact absurd h (by simp)
    | skip =>
      rw [hc] at h
      obtain ⟨h0, h1⟩ := ih h
      refine ⟨h0, le_trans h1 ?_⟩
      have hlen : (rest.filter fun x => x ∈ tableCols).length ≤
          ((c :: rest).filter fun x => x ∈ tableCols).length := by
        rw [List.filter_cons]
        split <;> simp
      exact_mod_cast hlen
    | flag v =>
      rw [hc] at h
      cases hr : scorePhase ak tableCols row rest with
      | none => rw [hr] at h; exact absurd h (by simp)
      | some p =>
        obtain ⟨flags', s'⟩ := p
        rw [hr] at h
        simp only [Option.some.injEq, Prod.mk.injEq] at h
        obtain ⟨h0, h1⟩ := ih hr
        obtain ⟨hmem, _, key, _, hv⟩ := scoreCell_flag_iff.mp hc
        obtain ⟨hv0, hv1⟩ : 0 ≤ v ∧ v ≤ 1 := by rw [hv]; split <;> simp
        have hlen : ((c :: rest).filter fun x => x ∈ tableCols).length =
            (rest.filter fun x => x ∈ tableCols).length + 1 := by
          simp [List.filter_cons, hmem]
        rw [← h.2, hlen]
        push_cast
        omega

theorem scorePhase_filter_skip {ak : List (String × String)} {tableCols : List String}
    {row : String → String} {col : String}
    (hskip : scoreCell ak tableCols row col = .skip) :
    ∀ cols : List String,
      scorePhase ak tableCols row (cols.filter fun c => c ≠ col) =
        scorePhase ak tableCols row cols := by
  intro cols
  induction cols with
  | nil => rfl
  | cons c rest ih =>
    by_cases hc : c = col
    · subst hc
      have hfc : (c :: rest).filter (fun x => x ≠ c) = rest.filter fun x => x ≠ c := by
        simp [List.filter_cons]
      rw [hfc, ih]
      simp [scorePhase, hskip]
    · have hfc : (c :: rest).filter (fun x => x ≠ col) =
          c :: (rest.filter fun x => x ≠ col) := by
        simp [List.filter_cons, hc]
      rw [hfc]
      simp only [scorePhase, ih]

theorem scorePhase_all_correct {ak : List (String × String)} {tableCols : List String}
    {row : String → String} :
    ∀ cols : List String,
      (∀ col ∈ cols, col ∈ tableCols) →
      (∀ col ∈ cols, ak.lookup col = some (strip (row col)) ∧
        strip (row col) ∉ missingMarkers) →
      scorePhase ak tableCols row cols =
        some (cols.map (fun c => (c, (1 : Int))), (cols.length : Int)) := by
  intro cols
  induction cols with
  | nil => intro _ _; rfl
  | cons c rest ih =>
    intro hin hkey
    have hcell : scoreCell ak tableCols row c = .flag 1 := by
      apply scoreCell_flag_iff.mpr
      refine ⟨hin c (List.mem_cons_self _ _), (hkey c (List.mem_cons_self _ _)).2,
        strip (row c), (hkey c (List.mem_cons_self _ _)).1, by simp⟩
    have hrest := ih (fun col hm => hin col (List.mem_cons_of_mem _ hm))
      (fun col hm => hkey col (List.mem_cons_of_mem _ hm))
    simp only [scorePhase, hcell, hrest, List.map_cons, List.length_cons]
    push_cast
    ring_nf

theorem scorePhase_all_skip {ak : List (String × String)} {tableCols : List String}
    {row : String → String} :
    ∀ cols : List String,
      (∀ col ∈ cols, col ∉ tableCols ∨ strip (row col) ∈ missingMarkers) →
      scorePhase ak tableCols row cols = some ([], 0) := by
  intro cols
  induction cols with
  | nil => intro _; rfl
  | cons c rest ih =>
    intro hsk
    have hcell : scoreCell ak tableCols row c = .skip :=
      scoreCell_skip_iff.mpr (hsk c (List.mem_cons_self _ _))
    have hrest := ih fun col hm => hsk col (List.mem_cons_of_mem _ hm)
    simp only [scorePhase, hcell, hrest]

theorem scorePhase_isSome {ak : List (String × String)} {tableCols : List String}
    {row : String → String} :
    ∀ cols : List String,
      (∀ col ∈ cols, (ak.lookup col).isSome = true) →
      (scorePhase ak tableCols row cols).isSome = true := by
  intro cols
  induction cols with
  | nil => intro _; rfl
  | cons c rest ih =>
    intro hkeys
    have hrest := ih fun col hm => hkeys col (List.mem_cons_of_mem _ hm)
    have hc : scoreCell ak tableCols row c ≠ .keyError := by
      intro hk
      obtain ⟨_, _, hnone⟩ := scoreCell_keyError_iff.mp hk
      have hsome := hkeys c (List.mem_cons_self _ _)
      rw [hnone] at hsome
      exact absurd hsome (by simp)
    simp only [scorePhase]
    cases hcc : scoreCell ak tableCols row c with
    | keyError => exact absurd hcc hc
    | skip => exact hrest
    | flag v =>
      cases hr : scorePhase ak tableCols row rest with
      | none => rw [hr] at hrest; exact absurd hrest (by simp)
      | some p => obtain ⟨flags, s⟩ := p; simp

/-! ## Record assembly and the row loop -/

theorem processRow_phases {cfg : GroupConfig} {tableCols : List String} {idx : Nat}
    {row : String → String} {rec : ParticipantRecord}
    (h : processRow cfg tableCols idx row = some rec) :
    scorePhase cfg.ANSWER_KEY tableCols row cfg.PRE_COLS =
      some (rec.preFlags, rec.pre_score) ∧
    scorePhase cfg.ANSWER_KEY tableCols row cfg.POST_COLS =
      some (rec.postFlags, rec.post_score) ∧
    rec.gain = rec.post_score - rec.pre_score ∧
    rec.id = idx ∧ rec.group = cfg.group ∧
    rec.background = extractBackground tableCols row := by
  unfold processRow at h
  cases hp : scorePhase cfg.ANSWER_KEY tableCols row cfg.PRE_COLS with
  | none => rw [hp] at h; exact absurd h (by simp)
  | some p =>
    obtain ⟨pf, ps⟩ := p
    cases hq : scorePhase cfg.ANSWER_KEY tableCols row cfg.POST_COLS with
    | none => rw [hp, hq] at h; exact absurd h (by simp)
    | some q =>
      obtain ⟨qf, qs⟩ := q
      rw [hp, hq] at h
      injection h with h
      subst h
      exact ⟨rfl, rfl, rfl, rfl, rfl, rfl⟩

theorem processRow_isSome {cfg : GroupConfig} {tableCols : List String} {idx : Nat}
    {row : String → String}
    (hkeys : ∀ col ∈ cfg.PRE_COLS ++ cfg.POST_COLS, (cfg.ANSWER_KEY.lookup col).isSome = true) :
    (processRow cfg tableCols idx row).isSome = true := by
  unfold processRow
  have hp := @scorePhase_isSome cfg.ANSWER_KEY tableCols row
    cfg.PRE_COLS fun col hm => hkeys col (List.mem_append_left _ hm)
  have hq := @scorePhase_isSome cfg.ANSWER_KEY tableCols row
    cfg.POST_COLS fun col hm => hkeys col (List.mem_append_right _ hm)
  cases hpp : scorePhase cfg.ANSWER_KEY tableCols row cfg.PRE_COLS with
  | none => rw [hpp] at hp; exact absurd hp (by simp)
  | some p =>
    cases hqq : scorePhase cfg.ANSWER_KEY tableCols row cfg.POST_COLS with
    | none => rw [hqq] at hq; exact absurd hq (by simp)
    | some q => obtain ⟨pf, ps⟩ := p; obtain ⟨qf, qs⟩ := q; simp

theorem processRows_getElem {cfg : GroupConfig} {tableCols : List String} :
    ∀ {rows : List (String → String)} {idx : Nat} {recs : List ParticipantRecord},
      processRows cfg tableCols idx rows = some recs →
      ∀ i : Nat, recs[i]? = (rows[i]?).bind fun row => processRow cfg tableCols (idx + i) row := by
  intro rows
  induction rows with
  | nil =>
    intro idx recs h i
    simp only [processRows, Option.some.injEq] at h
    rw [← h]
    simp
  | cons row rest ih =>
    intro idx recs h i
    simp only [processRows] at h
    cases hr : processRow cfg tableCols idx row with
    | none => rw [hr] at h; exact absurd h (by simp)
    | some rec =>
      cases hrest : processRows cfg tableCols (idx + 1) rest with
      | none => rw [hr, hrest] at h; exact absurd h (by simp)
      | some recs' =>
        rw [hr, hrest] at h
        injection h with h
        rw [← h]
        cases i with
        | zero => simpa using hr.symm
        | succ n =>
          have harith : idx + (n + 1) = idx + 1 + n := by omega
          simp only [List.getElem?_cons_succ, harith]
          exact ih hrest n

/-! ## Input discovery and the whole run -/

theorem discoverInput_ok_mem {files : List String} {f : String}
    (h : discoverInput files = .ok f) : f ∈ files := by
  unfold discoverInput at h
  cases hc : csvCandidates files with
  | nil => rw [hc] at h; exact absurd h (by simp)
  | cons a rest =>
    cases rest with
    | nil =>
      rw [hc] at h
      injection h with h
      subst h
      have hmem : a ∈ csvCandidates files := by rw [hc]; exact List.mem_cons_self _ _
      exact List.Sublist.subset (List.filter_sublist _) hmem
    | cons b rest2 => rw [hc] at h; exact absurd h (by simp)

theorem runCoder_congr {files : List String} {load1 load2 : String → SurveyTable}
    (h : ∀ f ∈ files, load1 f = load2 f) :
    runCoder files load1 = runCoder files load2 := by
  unfold runCoder
  cases hd : discoverInput files with
  | error e => rfl
  | ok f =>
    show finishRun f (load1 f) = finishRun f (load2 f)
    rw [h f (discoverInput_ok_mem hd)]

theorem scorePhase_no_keyError {ak : List (String × String)} {tableCols : List String}
    {row : String → String} :
    ∀ {cols : List String} {pr : List (String × Int) × Int} {col : String},
      scorePhase ak tableCols row cols = some pr →
      col ∈ cols →
      scoreCell ak tableCols row col ≠ .keyError := by
  intro cols
  induction cols with
  | nil => intro pr col _ hmem; simp at hmem
  | cons c rest ih =>
    intro pr col h hmem
    simp only [scorePhase] at h
    cases hc : scoreCell ak tableCols row c with
    | keyError => rw [hc] at h; exact absurd h (by simp)
    | skip =>
      rw [hc] at h
      rcases List.mem_cons.mp hmem with heq | htail
      · subst heq; rw [hc]; simp
      · exact ih h htail
    | flag v =>
      rw [hc] at h
      cases hr : scorePhase ak tableCols row rest with
      | none => rw [hr] at h; exact absurd h (by simp)
      | some p =>
        rcases List.mem_cons.mp hmem with heq | htail
        · subst heq; rw [hc]; simp
        · exact ih hr htail

theorem scorePhase_qualifying_mem {ak : List (String × String)} {tableCols : List String}
    {row : String → String} {cols : List String} {flags : List (String × Int)} {score : Int}
    {col : String}
    (h : scorePhase ak tableCols row cols = some (flags, score))
    (hmem : col ∈ cols) (hin : col ∈ tableCols)
    (hnb : strip (row col) ∉ missingMarkers) :
    ∃ key, ak.lookup col = some key ∧
      (col, if strip (row col) = key then (1 : Int) else 0) ∈ flags := by
  cases hc : scoreCell ak tableCols row col with
  | skip =>
    rcases scoreCell_skip_iff.mp hc with habs | habs
    · exact absurd hin habs
    · exact absurd habs hnb
  | keyError => exact absurd hc (scorePhase_no_keyError h hmem)
  | flag v =>
    obtain ⟨_, _, key, hkey, hv⟩ := scoreCell_flag_iff.mp hc
    subst hv
    exact ⟨key, hkey, scorePhase_mem_flag h hmem hc⟩

/-! ## Concrete fixtures used by the witness theorems -/

/-- A one-answer row: `Q16` answered correctly, everything else the pandas
string form of a missing cell. -/
def demoRow : String → String := fun c =>
  if c = "Q16" then "One entire pass over all training samples" else "nan"

/-- The header of a table holding all VR scored columns. -/
def demoCols : List String := vrConfig.PRE_COLS ++ vrConfig.POST_COLS

/-- The record the coder builds from `demoRow` at index 0. -/
def demoRec : ParticipantRecord :=
  { id := 0, group := "VR", background := [], preFlags := [("Q16", 1)], pre_score := 1,
    postFlags := [], post_score := 0, gain := -1 }

/-- A single-row demo table. -/
def demoTable : SurveyTable := { columns := demoCols, rows := [demoRow] }

/-- A loader that serves `demoTable` for any name. -/
def demoLoad : String → SurveyTable := fun _ => demoTable

/-! ## Claim theorems -/

/-- C1: for every row and every column of the active phase's list that is
present in the table, when the stripped cell value is not a missing marker
the coder emits a flag for that column equal to 1 exactly when the value
equals the answer key's expected string (0 otherwise), and each phase
score equals the sum of that phase's emitted flags. -/
theorem gradedAnswers_flag_and_sum (cfg : GroupConfig) (tableCols : List String)
    (idx : Nat) (row : String → String) (rec : ParticipantRecord)
    (h : processRow cfg tableCols idx row = some rec) :
    rec.pre_score = (rec.preFlags.map Prod.snd).sum ∧
    rec.post_score = (rec.postFlags.map Prod.snd).sum ∧
    (∀ col ∈ cfg.PRE_COLS, col ∈ tableCols → strip (row col) ∉ missingMarkers →
      ∃ key, cfg.ANSWER_KEY.lookup col = some key ∧
        (col, if strip (row col) = key then (1 : Int) else 0) ∈ rec.preFlags) ∧
    (∀ col ∈ cfg.POST_COLS, col ∈ tableCols → strip (row col) ∉ missingMarkers →
      ∃ key, cfg.ANSWER_KEY.lookup col = some key ∧
        (col, if strip (row col) = key then (1 : Int) else 0) ∈ rec.postFlags) := by
  obtain ⟨hp, hq, _, _, _, _⟩ := processRow_phases h
  exact ⟨scorePhase_sum hp, scorePhase_sum hq,
    fun col hmem hin hnb => scorePhase_qualifying_mem hp hmem hin hnb,
    fun col hmem hin hnb => scorePhase_qualifying_mem hq hmem hin hnb⟩

/-- Witness for C1 at a concrete input: the demo row answers `Q16`
correctly, the emitted flag is `("Q16", 1)` and the pre score is the sum
of the emitted flags. -/
theorem gradedAnswers_flag_and_sum_witness :
    demoRec.pre_score = (demoRec.preFlags.map Prod.snd).sum ∧
    ∃ key, vrConfig.ANSWER_KEY.lookup "Q16" = some key ∧
      ("Q16", if strip (demoRow "Q16") = key then (1 : Int) else 0) ∈ demoRec.preFlags := by
  have h : processRow vrConfig demoCols 0 demoRow = some demoRec := by decide
  obtain ⟨h1, _, h3, _⟩ := gradedAnswers_flag_and_sum vrConfig demoCols 0 demoRow demoRec h
  exact ⟨h1, h3 "Q16" (by decide) (by decide) (by decide)⟩

/-- C2: every record's `gain` field equals `post_score` minus `pre_score`. -/
theorem gain_eq_post_sub_pre (cfg : GroupConfig) (tbl : SurveyTable)
    (recs : List ParticipantRecord)
    (h : processTable cfg tbl = some recs) :
    ∀ rec ∈ recs, rec.gain = rec.post_score - rec.pre_score := by
  intro rec hmem
  obtain ⟨i, hi, hget⟩ := List.mem_iff_getElem.mp hmem
  have hq := processRows_getElem h i
  rw [List.getElem?_eq_getElem hi, hget] at hq
  cases hrow : tbl.rows[i]? with
  | none => rw [hrow] at hq; exact absurd hq.symm (by simp)
  | some row =>
    rw [hrow] at hq
    have hq2 : processRow cfg tbl.columns (0 + i) row = some rec := hq.symm
    obtain ⟨_, _, hgain, _, _, _⟩ := processRow_phases hq2
    exact hgain

/-- Witness for C2 at a concrete input: the single demo record has
`gain = post_score - pre_score = -1`. -/
theorem gain_eq_post_sub_pre_witness :
    demoRec.gain = demoRec.post_score - demoRec.pre_score := by
  have h : processTable vrConfig demoTable = some [demoRec] := by decide
  exact gain_eq_post_sub_pre vrConfig demoTable [demoRec] h demoRec (by decide)

/-- C3: for every row, both scores are non-negative and each is bounded by
the number of that phase's columns that are present in the loaded table. -/
theorem scores_nonneg_and_bounded (cfg : GroupConfig) (tableCols : List String)
    (idx : Nat) (row : String → String) (rec : ParticipantRecord)
    (h : processRow cfg tableCols idx row = some rec) :
    0 ≤ rec.pre_score ∧
    rec.pre_score ≤ ((cfg.PRE_COLS.filter fun c => c ∈ tableCols).length : Int) ∧
    0 ≤ rec.post_score ∧
    rec.post_score ≤ ((cfg.POST_COLS.filter fun c => c ∈ tableCols).length : Int) := by
  obtain ⟨hp, hq, _, _, _, _⟩ := processRow_phases h
  obtain ⟨h1, h2⟩ := scorePhase_bounds hp
  obtain ⟨h3, h4⟩ := scorePhase_bounds hq
  exact ⟨h1, h2, h3, h4⟩

/-- Witness for C3 at a concrete input: the demo record's scores are 1 and
0, within the bounds 12 and 12. -/
theorem scores_nonneg_and_bounded_witness :
    0 ≤ demoRec.pre_score ∧
    demoRec.pre_score ≤ ((vrConfig.PRE_COLS.filter fun c => c ∈ demoCols).length : Int) ∧
    0 ≤ demoRec.post_score ∧
    demoRec.post_score ≤ ((vrConfig.POST_COLS.filter fun c => c ∈ demoCols).length : Int) :=
  scores_nonneg_and_bounded vrConfig demoCols 0 demoRow demoRec (by decide)

/-- C4: a column that is absent from the table, or whose stripped value is
a missing marker, yields no flag field in the row's record, and removing
it from either phase's column list changes neither the emitted flags nor
the score: a non-response is neutral, not counted as incorrect. -/
theorem missing_answer_neutral (cfg : GroupConfig) (tableCols : List String)
    (idx : Nat) (row : String → String) (col : String) (rec : ParticipantRecord)
    (hskip : col ∉ tableCols ∨ strip (row col) ∈ missingMarkers)
    (h : processRow cfg tableCols idx row = some rec) :
    (∀ v : Int, (col, v) ∉ rec.preFlags ∧ (col, v) ∉ rec.postFlags) ∧
    scorePhase cfg.ANSWER_KEY tableCols row (cfg.PRE_COLS.filter fun c => c ≠ col) =
      some (rec.preFlags, rec.pre_score) ∧
    scorePhase cfg.ANSWER_KEY tableCols row (cfg.POST_COLS.filter fun c => c ≠ col) =
      some (rec.postFlags, rec.post_score) := by
  have hcell : scoreCell cfg.ANSWER_KEY tableCols row col = .skip :=
    scoreCell_skip_iff.mpr hskip
  obtain ⟨hp, hq, _, _, _, _⟩ := processRow_phases h
  refine ⟨fun v => ⟨fun hmem => ?_, fun hmem => ?_⟩, ?_, ?_⟩
  · have := (scorePhase_mem_inv hp hmem).2
    rw [hcell] at this
    exact absurd this.symm (by simp)
  · have := (scorePhase_mem_inv hq hmem).2
    rw [hcell] at this
    exact absurd this.symm (by simp)
  · rw [scorePhase_filter_skip hcell]; exact hp
  · rw [scorePhase_filter_skip hcell]; exact hq

/-- Witness for C4 at a concrete input: `Q17` is missing in the demo row,
so it appears in neither flag list and dropping it leaves both phases
unchanged. -/
theorem missing_answer_neutral_witness :
    (∀ v : Int, ("Q17", v) ∉ demoRec.preFlags ∧ ("Q17", v) ∉ demoRec.postFlags) ∧
    scorePhase vrConfig.ANSWER_KEY demoCols demoRow
        (vrConfig.PRE_COLS.filter fun c => c ≠ "Q17") =
      some (demoRec.preFlags, demoRec.pre_score) ∧
    scorePhase vrConfig.ANSWER_KEY demoCols demoRow
        (vrConfig.POST_COLS.filter fun c => c ≠ "Q17") =
      some (demoRec.postFlags, demoRec.post_score) :=
  missing_answer_neutral vrConfig demoCols 0 demoRow "Q17" demoRec
    (Or.inr (by decide)) (by decide)

/-- C5: group classification is deterministic and binary: a filename
containing the case-sensitive substring "VR" selects the VR configuration
and any other filename selects the Video configuration. -/
theorem group_classification (file_name : String) :
    ("VR".toList <:+: file_name.toList → selectConfig file_name = vrConfig) ∧
    (¬ "VR".toList <:+: file_name.toList → selectConfig file_name = videoConfig) := by
  constructor <;> intro h <;> unfold selectConfig
  · rw [if_pos h]
  · rw [if_neg h]

/-- Witness for C5 at concrete filenames: "VR_pilot.csv" selects the VR
configuration and "Video_pilot.csv" selects the Video configuration. -/
theorem group_classification_witness :
    selectConfig "VR_pilot.csv" = vrConfig ∧
    selectConfig "Video_pilot.csv" = videoConfig :=
  ⟨(group_classification "VR_pilot.csv").1 (by decide),
   (group_classification "Video_pilot.csv").2 (by decide)⟩

/-- C6: input discovery over the directory listing, after excluding names
with the output marker, aborts with the no-input error when zero
candidates remain and with the ambiguous-input error when more than one
remains (in the error cases the run produces no output records); a run
only succeeds when exactly one candidate remains. -/
theorem input_discovery_errors (files : List String) (load : String → SurveyTable) :
    (csvCandidates files = [] → runCoder files load = .error .inputNotFound) ∧
    (1 < (csvCandidates files).length → runCoder files load = .error .ambiguousInput) ∧
    (∀ recs, runCoder files load = .ok recs → ∃ f, csvCandidates files = [f]) := by
  unfold runCoder discoverInput
  cases hc : csvCandidates files with
  | nil => exact ⟨fun _ => rfl, fun hl => absurd hl (by simp), fun recs h => absurd h (by simp)⟩
  | cons a rest =>
    cases rest with
    | nil =>
      exact ⟨fun h => absurd h (by simp), fun hl => absurd hl (by simp),
        fun recs _ => ⟨a, rfl⟩⟩
    | cons b rest2 =>
      exact ⟨fun h => absurd h (by simp), fun _ => rfl, fun recs h => absurd h (by simp)⟩

/-- Witness for C6 at concrete directories: an empty directory aborts with
the no-input error and a directory with two raw CSVs aborts with the
ambiguous-input error. -/
theorem input_discovery_errors_witness :
    runCoder [] demoLoad = .error .inputNotFound ∧
    runCoder ["a.csv", "b.csv"] demoLoad = .error .ambiguousInput :=
  ⟨(input_discovery_errors [] demoLoad).1 (by decide),
   (input_discovery_errors ["a.csv", "b.csv"] demoLoad).2.1 (by decide)⟩

/-- C7: for a filename without "VR" (Video group), a row whose PRE_COLS
cells all equal their answer-key entries and whose POST_COLS cells are all
blank yields pre_score = 12, post_score = 0 and gain = -12. -/
theorem scenarioB_video_scores (file_name : String) (tableCols : List String)
    (idx : Nat) (row : String → String)
    (hname : ¬ "VR".toList <:+: file_name.toList)
    (hpresent : ∀ col ∈ videoConfig.PRE_COLS, col ∈ tableCols)
    (hpre : ∀ col ∈ videoConfig.PRE_COLS, videoConfig.ANSWER_KEY.lookup col = some (row col))
    (hpost : ∀ col ∈ videoConfig.POST_COLS, strip (row col) = "") :
    ∃ rec, processRow (selectConfig file_name) tableCols idx row = some rec ∧
      rec.pre_score = 12 ∧ rec.post_score = 0 ∧ rec.gain = -12 := by
  have hsel : selectConfig file_name = videoConfig := by
    unfold selectConfig; rw [if_neg hname]
  rw [hsel]
  have hfact : ∀ col ∈ videoConfig.PRE_COLS,
      strip ((videoConfig.ANSWER_KEY.lookup col).getD "") =
        (videoConfig.ANSWER_KEY.lookup col).getD "" ∧
      (videoConfig.ANSWER_KEY.lookup col).getD "" ∉ missingMarkers := by decide
  have hkey : ∀ col ∈ videoConfig.PRE_COLS,
      videoConfig.ANSWER_KEY.lookup col = some (strip (row col)) ∧
      strip (row col) ∉ missingMarkers := by
    intro col hm
    have h1 := hpre col hm
    have h2 := hfact col hm
    rw [h1] at h2
    simp only [Option.getD_some] at h2
    constructor
    · rw [h2.1]; exact h1
    · rw [h2.1]; exact h2.2
  have hp := @scorePhase_all_correct videoConfig.ANSWER_KEY tableCols
    row videoConfig.PRE_COLS hpresent hkey
  have hq := @scorePhase_all_skip videoConfig.ANSWER_KEY tableCols
    row videoConfig.POST_COLS
    (fun col hm => Or.inr (by rw [hpost col hm]; decide))
  have hrec : processRow videoConfig tableCols idx row =
      some { id := idx, group := videoConfig.group,
             background := extractBackground tableCols row,
             preFlags := videoConfig.PRE_COLS.map fun c => (c, (1 : Int)),
             pre_score := (videoConfig.PRE_COLS.length : Int),
             postFlags := [], post_score := 0,
             gain := 0 - (videoConfig.PRE_COLS.length : Int) } := by
    unfold processRow
    rw [hp, hq]
  refine ⟨_, hrec, ?_, rfl, ?_⟩
  · show (videoConfig.PRE_COLS.length : Int) = 12
    decide
  · show (0 : Int) - (videoConfig.PRE_COLS.length : Int) = -12
    decide

/-- A Scenario-B row for the Video group: every pre-test cell holds its
answer-key entry, every post-test cell is blank. -/
def scenarioBRow : String → String := fun c =>
  if c ∈ videoConfig.POST_COLS then "" else (videoConfig.ANSWER_KEY.lookup c).getD ""

/-- The header of a table holding all Video scored columns. -/
def scenarioBCols : List String := videoConfig.PRE_COLS ++ videoConfig.POST_COLS

/-- Witness for C7 at a concrete input: the filename "Video_pilot.csv" and
the Scenario-B row give pre_score 12, post_score 0, gain -12. -/
theorem scenarioB_video_scores_witness :
    ∃ rec, processRow (selectConfig "Video_pilot.csv") scenarioBCols 0 scenarioBRow =
        some rec ∧ rec.pre_score = 12 ∧ rec.post_score = 0 ∧ rec.gain = -12 :=
  scenarioB_video_scores "Video_pilot.csv" scenarioBCols 0 scenarioBRow
    (by decide) (by decide) (by decide) (by decide)

/-- C8: the run is a deterministic function of the directory listing and
the loaded table (two runs over identical inputs agree), and each output
record is a function of the row's contents, its positional index and the
selected configuration alone. -/
theorem coder_deterministic (files : List String) (load1 load2 : String → SurveyTable)
    (h : ∀ f ∈ files, load1 f = load2 f) :
    runCoder files load1 = runCoder files load2 ∧
    ∀ (cfg : GroupConfig) (tableCols : List String) (idx : Nat)
      (rows : List (String → String)) (recs : List ParticipantRecord),
      processRows cfg tableCols idx rows = some recs →
      ∀ i : Nat, recs[i]? = (rows[i]?).bind fun row => processRow cfg tableCols (idx + i) row :=
  ⟨runCoder_congr h, fun _ _ _ _ _ hpr i => processRows_getElem hpr i⟩

/-- Witness for C8 at a concrete input: two runs with the same loader over
the same one-file directory produce the same result. -/
theorem coder_deterministic_witness :
    runCoder ["VR_pilot.csv"] demoLoad = runCoder ["VR_pilot.csv"] demoLoad :=
  (coder_deterministic ["VR_pilot.csv"] demoLoad demoLoad (fun _ _ => rfl)).1

/-- Whether every scored column of a configuration has an answer-key
entry, so that `ANSWER_KEY[col]` cannot raise. -/
def keyComplete (cfg : GroupConfig) : Bool :=
  (cfg.PRE_COLS ++ cfg.POST_COLS).all fun c => (cfg.ANSWER_KEY.lookup c).isSome

/-- C9: in both shipped configurations every pre/post column has an
answer-key entry, and consequently row processing never hits the
missing-key failure for either configuration. -/
theorem answer_key_total :
    keyComplete vrConfig = true ∧ keyComplete videoConfig = true ∧
    ∀ (tableCols : List String) (idx : Nat) (row : String → String),
      (processRow vrConfig tableCols idx row).isSome = true ∧
      (processRow videoConfig tableCols idx row).isSome = true := by
  have hvr : keyComplete vrConfig = true := by decide
  have hvid : keyComplete videoConfig = true := by decide
  refine ⟨hvr, hvid, fun tableCols idx row => ⟨?_, ?_⟩⟩
  · exact processRow_isSome (List.all_eq_true.mp hvr)
  · exact processRow_isSome (List.all_eq_true.mp hvid)

/-- C10: in both configurations the answer-key entry of the i-th pre-test
column equals that of the i-th post-test column, and a row giving the same
stripped non-blank answer to a positionally paired pre and post question
(both present in the table) receives the same flag for both columns. -/
theorem pre_post_key_pairing :
    (∀ i, i < 12 →
      ((vrConfig.PRE_COLS[i]?).bind fun p => vrConfig.ANSWER_KEY.lookup p) =
        ((vrConfig.POST_COLS[i]?).bind fun q => vrConfig.ANSWER_KEY.lookup q) ∧
      ((videoConfig.PRE_COLS[i]?).bind fun p => videoConfig.ANSWER_KEY.lookup p) =
        ((videoConfig.POST_COLS[i]?).bind fun q => videoConfig.ANSWER_KEY.lookup q)) ∧
    ∀ (cfg : GroupConfig) (tableCols : List String) (row : String → String)
      (i : Nat) (p q : String),
      (cfg = vrConfig ∨ cfg = videoConfig) →
      cfg.PRE_COLS[i]? = some p → cfg.POST_COLS[i]? = some q →
      p ∈ tableCols → q ∈ tableCols →
      strip (row p) = strip (row q) →
      strip (row p) ∉ missingMarkers →
      ∃ v, scoreCell cfg.ANSWER_KEY tableCols row p = .flag v ∧
        scoreCell cfg.ANSWER_KEY tableCols row q = .flag v := by
  have hpair : ∀ i, i < 12 →
      ((vrConfig.PRE_COLS[i]?).bind fun p => vrConfig.ANSWER_KEY.lookup p) =
        ((vrConfig.POST_COLS[i]?).bind fun q => vrConfig.ANSWER_KEY.lookup q) ∧
      ((videoConfig.PRE_COLS[i]?).bind fun p => videoConfig.ANSWER_KEY.lookup p) =
        ((videoConfig.POST_COLS[i]?).bind fun q => videoConfig.ANSWER_KEY.lookup q) := by
    decide
  refine ⟨hpair, ?_⟩
  intro cfg tableCols row i p q hcfg hp hq hpin hqin hstrip hnb
  have hi : i < cfg.PRE_COLS.length := by
    by_contra hge
    rw [List.getElem?_eq_none (by omega)] at hp
    exact absurd hp (by simp)
  have hlen : i < 12 := by
    rcases hcfg with rfl | rfl
    · exact lt_of_lt_of_le hi (by decide)
    · exact lt_of_lt_of_le hi (by decide)
  have hlk : cfg.ANSWER_KEY.lookup p = cfg.ANSWER_KEY.lookup q := by
    rcases hcfg with rfl | rfl
    · have hb := (hpair i hlen).1
      rw [hp, hq] at hb
      exact hb
    · have hb := (hpair i hlen).2
      rw [hp, hq] at hb
      exact hb
  have hpmem : p ∈ cfg.PRE_COLS := List.getElem?_mem hp
  have hkeys : (cfg.ANSWER_KEY.lookup p).isSome = true := by
    have hvr : keyComplete vrConfig = true := by decide
    have hvid : keyComplete videoConfig = true := by decide
    rcases hcfg with rfl | rfl
    · exact List.all_eq_true.mp hvr p (List.mem_append_left _ hpmem)
    · exact List.all_eq_true.mp hvid p (List.mem_append_left _ hpmem)
  cases hlkp : cfg.ANSWER_KEY.lookup p with
  | none => rw [hlkp] at hkeys; exact absurd hkeys (by simp)
  | some k =>
    have hlkq : cfg.ANSWER_KEY.lookup q = some k := by rw [← hlk, hlkp]
    refine ⟨if strip (row p) = k then 1 else 0, ?_, ?_⟩
    · exact scoreCell_flag_iff.mpr ⟨hpin, hnb, k, hlkp, rfl⟩
    · refine scoreCell_flag_iff.mpr ⟨hqin, ?_, k, hlkq, ?_⟩
      · rw [← hstrip]; exact hnb
      · rw [hstrip]

/-- Witness for C10 at a concrete input: the paired VR columns Q16/Q87
with the same correct answer in both cells receive the same flag 1. -/
theorem pre_post_key_pairing_witness :
    ∃ v, scoreCell vrConfig.ANSWER_KEY ["Q16", "Q87"]
        (fun _ => "One entire pass over all training samples") "Q16" = .flag v ∧
      scoreCell vrConfig.ANSWER_KEY ["Q16", "Q87"]
        (fun _ => "One entire pass over all training samples") "Q87" = .flag v :=
  pre_post_key_pairing.2 vrConfig ["Q16", "Q87"]
    (fun _ => "One entire pass over all training samples") 0 "Q16" "Q87"
    (Or.inl rfl) (by decide) (by decide) (by decide) (by decide) (by decide) (by decide)
